import Mathlib

/-!
# The XLA interpreter platform (`xla/backends/interpreter/platform.cc`)

A shallow embedding of `stream_executor::interpreter::XlaInterpreterPlatform`
and of the start-up routine `InitializeXlaInterpreterPlatform`.

Conventions of the embedding.

* `DeviceOptions` is an opaque value type; it is the type parameter `Opts`.
  `DeviceOptions::Default()` is passed as the value `dflt`.
* An object created by `std::make_unique` gets a fresh identity (a natural
  number taken from an allocation counter).  A `StreamExecutor*` handle is
  modelled by the executor record, whose field `object` is that identity, so
  two handles refer to the same instance exactly when the records agree.
* `StreamExecutor::Init` and `absl::Status::ToString` are not part of
  `platform.cc`; they are the fields of a `Backend` record that every
  operation takes as an argument.  Different calls may be given different
  backends, so that `Init` may fail at one call and succeed at a later one.
* The sequence of effects (entering `GetUncachedExecutor`, calling `Init`) is
  recorded in a trace, so that "is invoked exactly once" can be stated.
-/

namespace stream_executor

/-- The canonical status codes of `absl::StatusCode`. -/
inductive StatusCode where
  | kOk
  | kCancelled
  | kUnknown
  | kInvalidArgument
  | kDeadlineExceeded
  | kNotFound
  | kAlreadyExists
  | kPermissionDenied
  | kResourceExhausted
  | kFailedPrecondition
  | kAborted
  | kOutOfRange
  | kUnimplemented
  | kInternal
  | kUnavailable
  | kDataLoss
  | kUnauthenticated
  deriving DecidableEq, Repr

/-- An `absl::Status`: a code and a message. -/
structure Status where
  code : StatusCode
  message : String
  deriving DecidableEq, Repr

/-- The method `Status::ok()`. -/
def Status.ok (s : Status) : Bool :=
  decide (s.code = StatusCode.kOk)

/-- The function `absl::OkStatus()`. -/
def OkStatus : Status :=
  { code := StatusCode.kOk, message := "" }

deriving instance DecidableEq for Except

/-- A `tsl::StatusOr<T>`: either a value (`Except.ok`) or a non-ok status
(`Except.error`). -/
abbrev StatusOr (α : Type) : Type :=
  Except Status α

/-- A `StreamExecutorConfig`, as far as `platform.cc` reads and writes it:
the device ordinal (a C++ `int`) and the device options. -/
structure StreamExecutorConfig (Opts : Type) where
  ordinal : Int
  device_options : Opts
  deriving DecidableEq, Repr

/-- The object built by
`std::make_unique<StreamExecutor>(this, std::make_unique<XlaInterpreterExecutor>(), ordinal)`.
`object` is the identity of the executor object, `implementation` the identity
of the `XlaInterpreterExecutor` it owns, `platform` the back-reference `this`
(represented by the identity token `id_` of the platform) and
`device_ordinal` the ordinal it is bound to. -/
structure StreamExecutor where
  object : Nat
  platform : Nat
  implementation : Nat
  device_ordinal : Int
  deriving DecidableEq, Repr

/-- The collaborators that `platform.cc` calls and does not define:
`StreamExecutor::Init` (called on an executor with the device options) and
`absl::Status::ToString`. -/
structure Backend (Opts : Type) where
  Init : StreamExecutor → Opts → Status
  ToString : Status → String

/-- The effects that are recorded: an entry into `GetUncachedExecutor` (one
invocation of the factory handed to the cache) and a call of `Init`. -/
inductive Event (Opts : Type) where
  | factory (config : StreamExecutorConfig Opts)
  | init (executor : StreamExecutor) (device_options : Opts)
  deriving DecidableEq, Repr

/-- The state of the process outside the platform object: the allocation
counter and the trace of effects so far. -/
structure World (Opts : Type) where
  next_object : Nat
  trace : List (Event Opts)
  deriving DecidableEq, Repr

/-- The number of factory invocations recorded in a trace. -/
def factoryCalls {Opts : Type} (t : List (Event Opts)) : Nat :=
  t.countP (fun e => match e with
    | Event.factory _ => true
    | Event.init _ _ => false)

/-- The number of `Init` calls recorded in a trace. -/
def initCalls {Opts : Type} (t : List (Event Opts)) : Nat :=
  t.countP (fun e => match e with
    | Event.factory _ => false
    | Event.init _ _ => true)

/-- The executor cache: the executors built so far, each under the
configuration it was built for. -/
structure ExecutorCache (Opts : Type) where
  entries : List (StreamExecutorConfig Opts × StreamExecutor)
  deriving DecidableEq, Repr

/-- The entry of the cache stored under `key`, if there is one. -/
def ExecutorCache.Get {Opts : Type} [DecidableEq Opts] (cache : ExecutorCache Opts)
    (key : StreamExecutorConfig Opts) : Option StreamExecutor :=
  (cache.entries.find? (fun kv => decide (kv.1 = key))).map Prod.snd

/-- Modelled from the spec: `ExecutorCache::GetOrCreate`, whose definition
(`executor_cache.cc`) is not among the sources.  Section 4.1: looks up `key`;
on a hit returns the existing executor without invoking `factory`; on a miss
invokes `factory` once and, if it succeeds, stores the result under `key` and
returns it; if it fails, the key remains absent and the error is returned. -/
def ExecutorCache.GetOrCreate {Opts : Type} [DecidableEq Opts] (cache : ExecutorCache Opts)
    (key : StreamExecutorConfig Opts)
    (factory : World Opts → StatusOr StreamExecutor × World Opts) (w : World Opts) :
    StatusOr StreamExecutor × ExecutorCache Opts × World Opts :=
  match cache.Get key with
  | some executor => (Except.ok executor, cache, w)
  | none =>
    match factory w with
    | (Except.ok executor, w1) =>
      (Except.ok executor, { entries := (key, executor) :: cache.entries }, w1)
    | (Except.error s, w1) => (Except.error s, cache, w1)

namespace interpreter

/-- The data members of `XlaInterpreterPlatform`. -/
structure XlaInterpreterPlatform (Opts : Type) where
  name_ : String
  id_ : Nat
  executor_cache_ : ExecutorCache Opts
  deriving DecidableEq, Repr

/-- The constructor `XlaInterpreterPlatform(name, id)`: it sets `name_` and
`id_`; the cache starts empty. -/
def XlaInterpreterPlatform.new {Opts : Type} (name : String) (id : Nat) :
    XlaInterpreterPlatform Opts :=
  { name_ := name, id_ := id, executor_cache_ := { entries := [] } }

/-- The method `id()`. -/
def XlaInterpreterPlatform.id {Opts : Type} (p : XlaInterpreterPlatform Opts) : Nat :=
  p.id_

/-- The method `VisibleDeviceCount()`. -/
def XlaInterpreterPlatform.VisibleDeviceCount {Opts : Type}
    (_p : XlaInterpreterPlatform Opts) : Int :=
  1

/-- The method `Name()`. -/
def XlaInterpreterPlatform.Name {Opts : Type} (p : XlaInterpreterPlatform Opts) : String :=
  p.name_

/-- A platform object together with the rest of the process state. -/
structure State (Opts : Type) where
  platform : XlaInterpreterPlatform Opts
  world : World Opts
  deriving DecidableEq, Repr

/-- The text produced by
`absl::StrFormat("failed initializing StreamExecutor for device ordinal %d: %s", ordinal, text)`. -/
def initFailureMessage (ordinal : Int) (text : String) : String :=
  "failed initializing StreamExecutor for device ordinal " ++ toString ordinal ++ ": " ++ text

/-- The executor that `GetUncachedExecutor` constructs in world `w`: the
`XlaInterpreterExecutor` is allocated first (it is an argument of the
constructor call), the `StreamExecutor` next. -/
def newExecutor {Opts : Type} (p : XlaInterpreterPlatform Opts) (w : World Opts)
    (ordinal : Int) : StreamExecutor :=
  { object := w.next_object + 1
    platform := p.id_
    implementation := w.next_object
    device_ordinal := ordinal }

/-- The method `GetUncachedExecutor(config)`. -/
def XlaInterpreterPlatform.GetUncachedExecutor {Opts : Type} (B : Backend Opts)
    (p : XlaInterpreterPlatform Opts) (config : StreamExecutorConfig Opts) (w : World Opts) :
    StatusOr StreamExecutor × World Opts :=
  let executor := newExecutor p w config.ordinal
  let init_status := B.Init executor config.device_options
  let w1 : World Opts :=
    { next_object := w.next_object + 2
      trace := w.trace ++ [Event.factory config, Event.init executor config.device_options] }
  if !init_status.ok then
    (Except.error
      { code := StatusCode.kInternal
        message := initFailureMessage config.ordinal (B.ToString init_status) }, w1)
  else
    (Except.ok executor, w1)

/-- The method `GetExecutor(config)`. -/
def XlaInterpreterPlatform.GetExecutor {Opts : Type} [DecidableEq Opts] (B : Backend Opts)
    (config : StreamExecutorConfig Opts) (s : State Opts) :
    StatusOr StreamExecutor × State Opts :=
  let r := s.platform.executor_cache_.GetOrCreate config
    (fun w => s.platform.GetUncachedExecutor B config w) s.world
  (r.1, { platform := { s.platform with executor_cache_ := r.2.1 }, world := r.2.2 })

/-- The method `ExecutorForDevice(ordinal)`; `dflt` is the value of
`DeviceOptions::Default()`.  The local `config` is value-initialised and then
assigned field by field, as in the source. -/
def XlaInterpreterPlatform.ExecutorForDevice {Opts : Type} [DecidableEq Opts]
    (B : Backend Opts) (dflt : Opts) (ordinal : Int) (s : State Opts) :
    StatusOr StreamExecutor × State Opts :=
  let config : StreamExecutorConfig Opts := { ordinal := 0, device_options := dflt }
  let config := { config with ordinal := ordinal }
  let config := { config with device_options := dflt }
  XlaInterpreterPlatform.GetExecutor B config s

/-- Modelled from the spec: the error kind `InvalidOrdinal` of sections 4.3
and 7.  The spec fixes neither a status code nor a message for it; it is
represented by an `absl::Status` with code `kInvalidArgument`. -/
def InvalidOrdinal (ordinal : Int) : Status :=
  { code := StatusCode.kInvalidArgument
    message := "invalid device ordinal " ++ toString ordinal }

/-- Modelled from the spec: `XlaInterpreterExecutor::CreateDeviceDescription`,
the static description builder of the device backend (`executor.cc` is not
among the sources).  Sections 4.3, 6 and 8: given an ordinal it produces a
device description, and it fails with `InvalidOrdinal` if the ordinal is out
of range, the range being the one visible device of the interpreter backend.
`Desc` is the type of device descriptions and `describe` the record built for
an ordinal in range. -/
def XlaInterpreterExecutor.CreateDeviceDescription {Desc : Type} (describe : Int → Desc)
    (ordinal : Int) : StatusOr Desc :=
  if ordinal < 0 ∨ 1 ≤ ordinal then
    Except.error (InvalidOrdinal ordinal)
  else
    Except.ok (describe ordinal)

/-- The method `DescriptionForDevice(ordinal)`. -/
def XlaInterpreterPlatform.DescriptionForDevice {Opts Desc : Type}
    (_p : XlaInterpreterPlatform Opts) (describe : Int → Desc) (ordinal : Int) :
    StatusOr Desc :=
  XlaInterpreterExecutor.CreateDeviceDescription describe ordinal

/-- The state after a list of `GetExecutor` requests, each served by the
backend behaviour of its moment. -/
def requests {Opts : Type} [DecidableEq Opts] :
    List (Backend Opts × StreamExecutorConfig Opts) → State Opts → State Opts
  | [], s => s
  | (B, config) :: rest, s => requests rest (XlaInterpreterPlatform.GetExecutor B config s).2

/-- The states a platform can be in: the state right after construction (in
any world), and every state that a `GetExecutor` call leaves behind. -/
inductive Reachable {Opts : Type} [DecidableEq Opts] : State Opts → Prop where
  | constructed (name : String) (id : Nat) (w : World Opts) :
      Reachable { platform := XlaInterpreterPlatform.new name id, world := w }
  | request (B : Backend Opts) (config : StreamExecutorConfig Opts) (s : State Opts) :
      Reachable s → Reachable (XlaInterpreterPlatform.GetExecutor B config s).2

/-- How a run of the start-up routine ends: it returns, or the process is
aborted by a failed check; either way with the state reached. -/
inductive Outcome (σ : Type) where
  | returned (s : σ)
  | aborted (s : σ) (status : Status)
  deriving DecidableEq, Repr

/-- The state in which a run ended. -/
def Outcome.state {σ : Type} : Outcome σ → σ
  | Outcome.returned s => s
  | Outcome.aborted s _ => s

/-- Whether the run ended in an abort. -/
def Outcome.isAborted {σ : Type} : Outcome σ → Bool
  | Outcome.returned _ => false
  | Outcome.aborted _ _ => true

/-- Modelled from the spec: the macro `TF_CHECK_OK` (`tsl/platform/status.h`
is not among the sources).  Sections 4.4 and 7: a status that is not ok is
escalated to a fatal abort of the process; an ok status lets the routine go
on. -/
def TF_CHECK_OK {σ : Type} (status : Status) (s : σ) : Outcome σ :=
  if status.ok then Outcome.returned s else Outcome.aborted s status

/-- The process-wide state at start-up: the platform registry (of type `R`)
and the log of the `RegisterPlatform` calls made so far. -/
structure Startup (R Opts : Type) where
  registry : R
  register_calls : List (XlaInterpreterPlatform Opts)

/-- The routine `InitializeXlaInterpreterPlatform()`.  `RegisterPlatform` is
`MultiPlatformManager::RegisterPlatform`; `kName` and `kId` are the default
arguments of the constructor, which `platform.h` declares. -/
def InitializeXlaInterpreterPlatform {R Opts : Type}
    (RegisterPlatform : R → XlaInterpreterPlatform Opts → Status × R)
    (kName : String) (kId : Nat) (s : Startup R Opts) : Outcome (Startup R Opts) :=
  let platform : XlaInterpreterPlatform Opts := XlaInterpreterPlatform.new kName kId
  let r := RegisterPlatform s.registry platform
  TF_CHECK_OK r.1
    { registry := r.2, register_calls := s.register_calls ++ [platform] }

end interpreter

/-- Modelled from the spec: the error kind `AlreadyRegistered` of sections 4.4
and 7, represented by an `absl::Status` with code `kAlreadyExists`. -/
def AlreadyRegistered : Status :=
  { code := StatusCode.kAlreadyExists, message := "platform is already registered" }

/-- Modelled from the spec: the platform registry of section 3, a mapping
from identity to platform instance, kept as the list of registered platforms. -/
structure Registry (Opts : Type) where
  platforms : List (interpreter.XlaInterpreterPlatform Opts)

/-- Modelled from the spec: `Lookup(identity)` of section 4.4, a pure read
from the mapping. -/
def Registry.Lookup {Opts : Type} (r : Registry Opts) (id : Nat) :
    Option (interpreter.XlaInterpreterPlatform Opts) :=
  r.platforms.find? (fun q => decide (q.id_ = id))

/-- Modelled from the spec: `MultiPlatformManager::RegisterPlatform`
(`multi_platform_manager.cc` is not among the sources).  Section 4.4: inserts
`platform` under its identity; fails with `AlreadyRegistered` if the identity
is already present. -/
def MultiPlatformManager.RegisterPlatform {Opts : Type} (r : Registry Opts)
    (platform : interpreter.XlaInterpreterPlatform Opts) : Status × Registry Opts :=
  match r.Lookup platform.id_ with
  | some _ => (AlreadyRegistered, r)
  | none => (OkStatus, { platforms := platform :: r.platforms })

namespace interpreter

/-- A backend whose `Init` always succeeds; `ToString` gives the message. -/
def readyBackend : Backend Nat :=
  { Init := fun _ _ => OkStatus, ToString := fun st => st.message }

/-- A backend whose `Init` always fails with `kUnavailable` and the message
"busy"; `ToString` gives the message. -/
def busyBackend : Backend Nat :=
  { Init := fun _ _ => { code := StatusCode.kUnavailable, message := "busy" }
    ToString := fun st => st.message }

/-- A platform named "Interpreter" with identity 7, right after construction,
in a world where nothing has been allocated or recorded yet. -/
def freshState : State Nat :=
  { platform := XlaInterpreterPlatform.new "Interpreter" 7
    world := { next_object := 0, trace := [] } }

/-- The invariant of the reachable states: every cached executor was
allocated before now, refers back to this platform, is bound to the ordinal
of its key and has had `Init` called with the options of its key; and two
cache entries holding the same object are under the same key. -/
def Inv {Opts : Type} (s : State Opts) : Prop :=
  (∀ kv ∈ s.platform.executor_cache_.entries,
    kv.2.object < s.world.next_object ∧ kv.2.platform = s.platform.id_ ∧
    kv.2.device_ordinal = kv.1.ordinal ∧
    Event.init kv.2 kv.1.device_options ∈ s.world.trace) ∧
  (∀ x ∈ s.platform.executor_cache_.entries, ∀ y ∈ s.platform.executor_cache_.entries,
    x.2.object = y.2.object → x.1 = y.1)

end interpreter

/-! ## The cache -/

theorem ExecutorCache.Get_some_mem {Opts : Type} [DecidableEq Opts]
    {cache : ExecutorCache Opts} {key : StreamExecutorConfig Opts} {e : StreamExecutor}
    (h : cache.Get key = some e) : (key, e) ∈ cache.entries := by
  unfold ExecutorCache.Get at h
  rcases hf : cache.entries.find? (fun kv => decide (kv.1 = key)) with _ | kv
  · rw [hf] at h
    simp at h
  · rw [hf] at h
    have hk := List.find?_some hf
    have hm := List.mem_of_find?_eq_some hf
    have h : kv.2 = e := by simpa using h
    have hk := of_decide_eq_true hk
    have hkv : kv = (key, e) := Prod.ext hk h
    rw [← hkv]
    exact hm

theorem ExecutorCache.Get_cons_self {Opts : Type} [DecidableEq Opts]
    (entries : List (StreamExecutorConfig Opts × StreamExecutor))
    (key : StreamExecutorConfig Opts) (e : StreamExecutor) :
    ExecutorCache.Get { entries := (key, e) :: entries } key = some e := by
  simp [ExecutorCache.Get]

theorem ExecutorCache.Get_cons_ne {Opts : Type} [DecidableEq Opts]
    (entries : List (StreamExecutorConfig Opts × StreamExecutor))
    {key other : StreamExecutorConfig Opts} (e : StreamExecutor) (h : key ≠ other) :
    ExecutorCache.Get { entries := (key, e) :: entries } other =
      ExecutorCache.Get { entries := entries } other := by
  simp [ExecutorCache.Get, List.find?_cons, h]

namespace interpreter

/-! ## The three ways a `GetExecutor` call can go -/

theorem GetExecutor_hit {Opts : Type} [DecidableEq Opts] (B : Backend Opts)
    (config : StreamExecutorConfig Opts) (s : State Opts) (e : StreamExecutor)
    (h : s.platform.executor_cache_.Get config = some e) :
    XlaInterpreterPlatform.GetExecutor B config s = (Except.ok e, s) := by
  simp [XlaInterpreterPlatform.GetExecutor, ExecutorCache.GetOrCreate, h]

theorem GetExecutor_built {Opts : Type} [DecidableEq Opts] (B : Backend Opts)
    (config : StreamExecutorConfig Opts) (s : State Opts)
    (h : s.platform.executor_cache_.Get config = none)
    (hi : (B.Init (newExecutor s.platform s.world config.ordinal)
      config.device_options).ok = true) :
    XlaInterpreterPlatform.GetExecutor B config s =
      (Except.ok (newExecutor s.platform s.world config.ordinal),
        { platform :=
            { s.platform with
              executor_cache_ :=
                { entries := (config, newExecutor s.platform s.world config.ordinal) ::
                    s.platform.executor_cache_.entries } }
          world :=
            { next_object := s.world.next_object + 2
              trace := s.world.trace ++
                [Event.factory config,
                 Event.init (newExecutor s.platform s.world config.ordinal)
                   config.device_options] } }) := by
  simp [XlaInterpreterPlatform.GetExecutor, ExecutorCache.GetOrCreate, h,
    XlaInterpreterPlatform.GetUncachedExecutor, hi]

theorem GetExecutor_failed {Opts : Type} [DecidableEq Opts] (B : Backend Opts)
    (config : StreamExecutorConfig Opts) (s : State Opts)
    (h : s.platform.executor_cache_.Get config = none)
    (hi : (B.Init (newExecutor s.platform s.world config.ordinal)
      config.device_options).ok = false) :
    XlaInterpreterPlatform.GetExecutor B config s =
      (Except.error
        { code := StatusCode.kInternal
          message := initFailureMessage config.ordinal
            (B.ToString (B.Init (newExecutor s.platform s.world config.ordinal)
              config.device_options)) },
        { platform := s.platform
          world :=
            { next_object := s.world.next_object + 2
              trace := s.world.trace ++
                [Event.factory config,
                 Event.init (newExecutor s.platform s.world config.ordinal)
                   config.device_options] } }) := by
  simp [XlaInterpreterPlatform.GetExecutor, ExecutorCache.GetOrCreate, h,
    XlaInterpreterPlatform.GetUncachedExecutor, hi]

/-- A `GetExecutor` call goes one of the three ways. -/
theorem GetExecutor_cases {Opts : Type} [DecidableEq Opts] (B : Backend Opts)
    (config : StreamExecutorConfig Opts) (s : State Opts) :
    (∃ e, s.platform.executor_cache_.Get config = some e) ∨
    (s.platform.executor_cache_.Get config = none ∧
      (B.Init (newExecutor s.platform s.world config.ordinal)
        config.device_options).ok = true) ∨
    (s.platform.executor_cache_.Get config = none ∧
      (B.Init (newExecutor s.platform s.world config.ordinal)
        config.device_options).ok = false) := by
  rcases hg : s.platform.executor_cache_.Get config with _ | e
  · right
    rcases hi : (B.Init (newExecutor s.platform s.world config.ordinal)
      config.device_options).ok with _ | _
    · right
      exact ⟨rfl, rfl⟩
    · left
      exact ⟨rfl, rfl⟩
  · left
    exact ⟨e, rfl⟩

/-! ## The invariant -/

theorem Inv_constructed {Opts : Type} (name : String) (id : Nat) (w : World Opts) :
    Inv { platform := XlaInterpreterPlatform.new name id, world := w } := by
  constructor
  · intro kv hkv
    simp [XlaInterpreterPlatform.new] at hkv
  · intro x hx
    simp [XlaInterpreterPlatform.new] at hx

theorem Inv_GetExecutor {Opts : Type} [DecidableEq Opts] (B : Backend Opts)
    (config : StreamExecutorConfig Opts) (s : State Opts) (h : Inv s) :
    Inv (XlaInterpreterPlatform.GetExecutor B config s).2 := by
  obtain ⟨h1, h2⟩ := h
  rcases GetExecutor_cases B config s with ⟨e, hg⟩ | ⟨hg, hi⟩ | ⟨hg, hi⟩
  · rw [GetExecutor_hit B config s e hg]
    exact ⟨h1, h2⟩
  · rw [GetExecutor_built B config s hg hi]
    constructor
    · intro kv hkv
      simp only [List.mem_cons] at hkv
      rcases hkv with rfl | hkv
      · refine ⟨?_, rfl, rfl, ?_⟩
        · simp [newExecutor]
        · simp
      · obtain ⟨a, b, c, d⟩ := h1 kv hkv
        refine ⟨?_, b, c, ?_⟩
        · show kv.2.object < s.world.next_object + 2
          omega
        · exact List.mem_append_left _ d
    · intro x hx y hy hxy
      simp only [List.mem_cons] at hx hy
      rcases hx with rfl | hx <;> rcases hy with rfl | hy
      · rfl
      · have := (h1 y hy).1
        simp only [newExecutor] at hxy
        omega
      · have := (h1 x hx).1
        simp only [newExecutor] at hxy
        omega
      · exact h2 x hx y hy hxy
  · rw [GetExecutor_failed B config s hg hi]
    constructor
    · intro kv hkv
      obtain ⟨a, b, c, d⟩ := h1 kv hkv
      refine ⟨?_, b, c, ?_⟩
      · show kv.2.object < s.world.next_object + 2
        omega
      · exact List.mem_append_left _ d
    · exact h2

theorem Inv_of_Reachable {Opts : Type} [DecidableEq Opts] {s : State Opts}
    (h : Reachable s) : Inv s := by
  induction h with
  | constructed name id w => exact Inv_constructed name id w
  | request B config s _ ih => exact Inv_GetExecutor B config s ih

theorem factoryCalls_append {Opts : Type} (t u : List (Event Opts)) :
    factoryCalls (t ++ u) = factoryCalls t + factoryCalls u := by
  simp [factoryCalls, List.countP_append]

theorem initCalls_append {Opts : Type} (t u : List (Event Opts)) :
    initCalls (t ++ u) = initCalls t + initCalls u := by
  simp [initCalls, List.countP_append]

theorem factoryCalls_pair {Opts : Type} (config : StreamExecutorConfig Opts)
    (e : StreamExecutor) (o : Opts) :
    factoryCalls [Event.factory config, Event.init e o] = 1 := by
  simp [factoryCalls, List.countP_cons]

theorem initCalls_pair {Opts : Type} (config : StreamExecutorConfig Opts)
    (e : StreamExecutor) (o : Opts) :
    initCalls [Event.factory config, Event.init e o] = 1 := by
  simp [initCalls, List.countP_cons]

/-- A `GetExecutor` call whose `Init` cannot fail returns an executor, which
is then the cache entry of the key; the entries of the other keys stay as they
were. -/
theorem GetExecutor_succeeds {Opts : Type} [DecidableEq Opts] (B : Backend Opts)
    (config : StreamExecutorConfig Opts) (s : State Opts)
    (hinit : ∀ ex, (B.Init ex config.device_options).ok = true) :
    ∃ e s1, XlaInterpreterPlatform.GetExecutor B config s = (Except.ok e, s1) ∧
      s1.platform.executor_cache_.Get config = some e ∧
      s1.platform.id_ = s.platform.id_ ∧
      ∀ other, config ≠ other →
        s1.platform.executor_cache_.Get other = s.platform.executor_cache_.Get other := by
  rcases GetExecutor_cases B config s with ⟨e, hg⟩ | ⟨hg, hi⟩ | ⟨hg, hi⟩
  · exact ⟨e, s, GetExecutor_hit B config s e hg, hg, rfl, fun _ _ => rfl⟩
  · refine ⟨_, _, GetExecutor_built B config s hg hi, ?_, rfl, ?_⟩
    · exact ExecutorCache.Get_cons_self _ _ _
    · intro other hne
      exact ExecutorCache.Get_cons_ne _ _ hne
  · rw [hinit] at hi
    exact absurd hi (by decide)

/-- A `GetExecutor` call leaves the cache entry of every other key as it
was. -/
theorem GetExecutor_other_key {Opts : Type} [DecidableEq Opts] (B : Backend Opts)
    (config other : StreamExecutorConfig Opts) (s : State Opts) (hne : config ≠ other) :
    (XlaInterpreterPlatform.GetExecutor B config s).2.platform.executor_cache_.Get other =
      s.platform.executor_cache_.Get other := by
  rcases GetExecutor_cases B config s with ⟨e, hg⟩ | ⟨hg, hi⟩ | ⟨hg, hi⟩
  · rw [GetExecutor_hit B config s e hg]
  · rw [GetExecutor_built B config s hg hi]
    exact ExecutorCache.Get_cons_ne _ _ hne
  · rw [GetExecutor_failed B config s hg hi]

/-- Requests for other keys leave the cache entry of a key as it was. -/
theorem requests_other_keys {Opts : Type} [DecidableEq Opts]
    (rs : List (Backend Opts × StreamExecutorConfig Opts)) (k : StreamExecutorConfig Opts)
    (s : State Opts) (hrs : ∀ r ∈ rs, r.2 ≠ k) :
    (requests rs s).platform.executor_cache_.Get k = s.platform.executor_cache_.Get k := by
  induction rs generalizing s with
  | nil => rfl
  | cons r rest ih =>
    obtain ⟨B, config⟩ := r
    have hrest : ∀ r ∈ rest, r.2 ≠ k := fun r hr => hrs r (List.mem_cons_of_mem _ hr)
    have hhead : config ≠ k := hrs (B, config) (List.mem_cons_self _ _)
    show (requests rest (XlaInterpreterPlatform.GetExecutor B config s).2
      ).platform.executor_cache_.Get k = _
    rw [ih _ hrest]
    exact GetExecutor_other_key B config k s hhead

/-! ## The claims -/

/-- C1, as stated, fails: in the reachable state where the key `(0, 0)` is
already cached, two consecutive `GetExecutor` calls return the same executor
and the factory `GetUncachedExecutor` is not invoked at all, not once. -/
theorem C1_cached_key_no_factory_call :
    Reachable (XlaInterpreterPlatform.GetExecutor readyBackend ⟨0, 0⟩ freshState).2 ∧
    (XlaInterpreterPlatform.GetExecutor readyBackend ⟨0, 0⟩
      (XlaInterpreterPlatform.GetExecutor readyBackend ⟨0, 0⟩ freshState).2).1 =
      Except.ok ⟨1, 7, 0, 0⟩ ∧
    (XlaInterpreterPlatform.GetExecutor readyBackend ⟨0, 0⟩
      (XlaInterpreterPlatform.GetExecutor readyBackend ⟨0, 0⟩
        (XlaInterpreterPlatform.GetExecutor readyBackend ⟨0, 0⟩ freshState).2).2).1 =
      Except.ok ⟨1, 7, 0, 0⟩ ∧
    factoryCalls (XlaInterpreterPlatform.GetExecutor readyBackend ⟨0, 0⟩
      (XlaInterpreterPlatform.GetExecutor readyBackend ⟨0, 0⟩
        (XlaInterpreterPlatform.GetExecutor readyBackend ⟨0, 0⟩ freshState).2).2).2.world.trace =
      factoryCalls
        (XlaInterpreterPlatform.GetExecutor readyBackend ⟨0, 0⟩ freshState).2.world.trace ∧
    factoryCalls (XlaInterpreterPlatform.GetExecutor readyBackend ⟨0, 0⟩
      (XlaInterpreterPlatform.GetExecutor readyBackend ⟨0, 0⟩
        (XlaInterpreterPlatform.GetExecutor readyBackend ⟨0, 0⟩ freshState).2).2).2.world.trace ≠
      factoryCalls
        (XlaInterpreterPlatform.GetExecutor readyBackend ⟨0, 0⟩ freshState).2.world.trace + 1 := by
  refine ⟨Reachable.request _ _ _ (Reachable.constructed _ _ _), ?_, ?_, ?_, ?_⟩ <;> decide

/-- C1 (amended): for every platform state and every key `k`, if a
`GetExecutor(k)` call succeeds with executor `e`, the next `GetExecutor(k)`
call returns the same executor `e` and changes nothing; over the two calls the
factory `GetUncachedExecutor` is invoked exactly once when `k` was absent from
the cache before the first call, and not at all when `k` was already cached. -/
theorem C1_GetExecutor_twice_same_instance {Opts : Type} [DecidableEq Opts]
    (B1 B2 : Backend Opts) (k : StreamExecutorConfig Opts) (s s1 : State Opts)
    (e : StreamExecutor)
    (h : XlaInterpreterPlatform.GetExecutor B1 k s = (Except.ok e, s1)) :
    XlaInterpreterPlatform.GetExecutor B2 k s1 = (Except.ok e, s1) ∧
    factoryCalls (XlaInterpreterPlatform.GetExecutor B2 k s1).2.world.trace =
      factoryCalls s.world.trace +
        (if (s.platform.executor_cache_.Get k).isSome then 0 else 1) := by
  rcases GetExecutor_cases B1 k s with ⟨e0, hg⟩ | ⟨hg, hi⟩ | ⟨hg, hi⟩
  · rw [GetExecutor_hit B1 k s e0 hg] at h
    simp only [Prod.mk.injEq, Except.ok.injEq] at h
    obtain ⟨he, hs⟩ := h
    subst he
    subst hs
    have h2 := GetExecutor_hit B2 k s e0 hg
    refine ⟨h2, ?_⟩
    rw [h2, hg]
    simp
  · rw [GetExecutor_built B1 k s hg hi] at h
    simp only [Prod.mk.injEq, Except.ok.injEq] at h
    obtain ⟨he, hs⟩ := h
    subst he
    subst hs
    have h2 : XlaInterpreterPlatform.GetExecutor B2 k _ = (Except.ok _, _) :=
      GetExecutor_hit B2 k
        { platform :=
            { s.platform with
              executor_cache_ :=
                { entries := (k, newExecutor s.platform s.world k.ordinal) ::
                    s.platform.executor_cache_.entries } }
          world :=
            { next_object := s.world.next_object + 2
              trace := s.world.trace ++
                [Event.factory k,
                 Event.init (newExecutor s.platform s.world k.ordinal) k.device_options] } }
        (newExecutor s.platform s.world k.ordinal)
        (ExecutorCache.Get_cons_self s.platform.executor_cache_.entries k
          (newExecutor s.platform s.world k.ordinal))
    refine ⟨h2, ?_⟩
    rw [h2, hg]
    simp [factoryCalls_append, factoryCalls_pair]
  · rw [GetExecutor_failed B1 k s hg hi] at h
    simp at h

/-- Witness of C1 (amended): on a fresh platform the first call builds the
executor and the second returns it. -/
theorem C1_GetExecutor_twice_same_instance_witness :
    XlaInterpreterPlatform.GetExecutor readyBackend ⟨0, 0⟩
      (XlaInterpreterPlatform.GetExecutor readyBackend ⟨0, 0⟩ freshState).2 =
      (Except.ok ⟨1, 7, 0, 0⟩,
        (XlaInterpreterPlatform.GetExecutor readyBackend ⟨0, 0⟩ freshState).2) ∧
    factoryCalls (XlaInterpreterPlatform.GetExecutor readyBackend ⟨0, 0⟩
      (XlaInterpreterPlatform.GetExecutor readyBackend ⟨0, 0⟩ freshState).2).2.world.trace =
      factoryCalls freshState.world.trace +
        (if (freshState.platform.executor_cache_.Get ⟨0, 0⟩).isSome then 0 else 1) :=
  C1_GetExecutor_twice_same_instance readyBackend readyBackend ⟨0, 0⟩ freshState
    (XlaInterpreterPlatform.GetExecutor readyBackend ⟨0, 0⟩ freshState).2 ⟨1, 7, 0, 0⟩
    (by decide)

/-- C2: if `GetExecutor(k)` fails, it is because `Init` failed on the executor
just built for the absent key `k`; the platform, and with it every entry of
the executor cache, is left as it was and `k` stays absent.  After any
requests for other keys, a later `GetExecutor(k)` whose `Init` succeeds runs
the construction again (one more factory invocation and one more `Init` call,
on an object allocated then), succeeds, and stores the new executor under
`k`, so that a further call returns it. -/
theorem C2_GetExecutor_failure_leaves_cache {Opts : Type} [DecidableEq Opts]
    (B1 B2 B3 : Backend Opts) (k : StreamExecutorConfig Opts) (s s1 : State Opts)
    (st : Status) (rs : List (Backend Opts × StreamExecutorConfig Opts))
    (hfail : XlaInterpreterPlatform.GetExecutor B1 k s = (Except.error st, s1))
    (hrs : ∀ r ∈ rs, r.2 ≠ k)
    (hinit : ∀ ex, (B2.Init ex k.device_options).ok = true) :
    (B1.Init (newExecutor s.platform s.world k.ordinal) k.device_options).ok = false ∧
    s1.platform = s.platform ∧
    s1.platform.executor_cache_.Get k = none ∧
    ∃ e s2, XlaInterpreterPlatform.GetExecutor B2 k (requests rs s1) = (Except.ok e, s2) ∧
      e = newExecutor (requests rs s1).platform (requests rs s1).world k.ordinal ∧
      (requests rs s1).world.next_object ≤ e.object ∧
      s2.world.trace =
        (requests rs s1).world.trace ++ [Event.factory k, Event.init e k.device_options] ∧
      factoryCalls s2.world.trace = factoryCalls (requests rs s1).world.trace + 1 ∧
      initCalls s2.world.trace = initCalls (requests rs s1).world.trace + 1 ∧
      s2.platform.executor_cache_.entries =
        (k, e) :: (requests rs s1).platform.executor_cache_.entries ∧
      s2.platform.executor_cache_.Get k = some e ∧
      XlaInterpreterPlatform.GetExecutor B3 k s2 = (Except.ok e, s2) := by
  rcases GetExecutor_cases B1 k s with ⟨e0, hg⟩ | ⟨hg, hi⟩ | ⟨hg, hi⟩
  · rw [GetExecutor_hit B1 k s e0 hg] at hfail
    simp at hfail
  · rw [GetExecutor_built B1 k s hg hi] at hfail
    simp at hfail
  · rw [GetExecutor_failed B1 k s hg hi] at hfail
    simp only [Prod.mk.injEq] at hfail
    obtain ⟨_, hs⟩ := hfail
    have hp : s1.platform = s.platform := by rw [← hs]
    have hg1 : s1.platform.executor_cache_.Get k = none := by rw [hp]; exact hg
    refine ⟨hi, hp, hg1, ?_⟩
    have hg2 : (requests rs s1).platform.executor_cache_.Get k = none := by
      rw [requests_other_keys rs k s1 hrs]
      exact hg1
    have hb := GetExecutor_built B2 k (requests rs s1) hg2 (hinit _)
    refine ⟨_, _, hb, rfl, ?_, rfl, ?_, ?_, rfl, ?_, ?_⟩
    · simp [newExecutor]
    · simp only [factoryCalls_append, factoryCalls_pair]
    · simp only [initCalls_append, initCalls_pair]
    · exact ExecutorCache.Get_cons_self _ _ _
    · exact GetExecutor_hit B3 k _ _ (ExecutorCache.Get_cons_self _ _ _)

/-- Witness of C2: on a fresh platform a call for the key `(0, 0)` with a busy
backend fails; after a request for the key `(1, 0)`, the theorem applies to
the next call for `(0, 0)`. -/
theorem C2_GetExecutor_failure_leaves_cache_witness :
    XlaInterpreterPlatform.GetExecutor busyBackend ⟨0, 0⟩ freshState =
      (Except.error
        ⟨StatusCode.kInternal, "failed initializing StreamExecutor for device ordinal 0: busy"⟩,
        (XlaInterpreterPlatform.GetExecutor busyBackend ⟨0, 0⟩ freshState).2) ∧
    (XlaInterpreterPlatform.GetExecutor busyBackend ⟨0, 0⟩ freshState).2.platform =
      freshState.platform ∧
    ∃ e s2, XlaInterpreterPlatform.GetExecutor readyBackend ⟨0, 0⟩
        (requests [(readyBackend, ⟨1, 0⟩)]
          (XlaInterpreterPlatform.GetExecutor busyBackend ⟨0, 0⟩ freshState).2) =
        (Except.ok e, s2) ∧
      s2.platform.executor_cache_.Get ⟨0, 0⟩ = some e :=
  have h := C2_GetExecutor_failure_leaves_cache busyBackend readyBackend readyBackend ⟨0, 0⟩
    freshState (XlaInterpreterPlatform.GetExecutor busyBackend ⟨0, 0⟩ freshState).2
    ⟨StatusCode.kInternal, "failed initializing StreamExecutor for device ordinal 0: busy"⟩
    [(readyBackend, ⟨1, 0⟩)] (by decide) (by simp) (fun _ => rfl)
  ⟨by decide, h.2.1,
    match h.2.2.2 with
    | ⟨e, s2, hr, _, _, _, _, _, _, hget, _⟩ => ⟨e, s2, hr, hget⟩⟩

/-- C3, as stated, fails: for the key with ordinal 3 and an `Init` that fails
with a status whose description is "busy", the message of the error returned
by `GetUncachedExecutor` reads "StreamExecutor" where the claim has
"executor", so it is not the string of the claim. -/
theorem C3_message_is_not_the_claimed_string :
    (XlaInterpreterPlatform.GetUncachedExecutor busyBackend freshState.platform ⟨3, 0⟩
      freshState.world).1 =
      Except.error
        { code := StatusCode.kInternal
          message := "failed initializing StreamExecutor for device ordinal 3: busy" } ∧
    busyBackend.ToString (busyBackend.Init (newExecutor freshState.platform freshState.world 3) 0)
      = "busy" ∧
    (XlaInterpreterPlatform.GetUncachedExecutor busyBackend freshState.platform ⟨3, 0⟩
      freshState.world).1 ≠
      Except.error
        { code := StatusCode.kInternal
          message := "failed initializing executor for device ordinal " ++ toString (3 : Int) ++
            ": " ++ busyBackend.ToString
              (busyBackend.Init (newExecutor freshState.platform freshState.world 3) 0) } := by
  refine ⟨?_, ?_, ?_⟩ <;> decide

/-- C3 (amended): for every configuration key whose executor `Init` fails with
status `e`, `GetUncachedExecutor` returns no executor but a status with code
`kInternal` whose message is exactly
"failed initializing StreamExecutor for device ordinal ORDINAL: TEXT", with
ORDINAL the ordinal of the key in decimal and TEXT the result of
`e.ToString()`. -/
theorem C3_GetUncachedExecutor_init_failure {Opts : Type} (B : Backend Opts)
    (p : XlaInterpreterPlatform Opts) (config : StreamExecutorConfig Opts) (w : World Opts)
    (hfail : (B.Init (newExecutor p w config.ordinal) config.device_options).ok = false) :
    (p.GetUncachedExecutor B config w).1 =
      Except.error
        { code := StatusCode.kInternal
          message := "failed initializing StreamExecutor for device ordinal " ++
            toString config.ordinal ++ ": " ++
            B.ToString (B.Init (newExecutor p w config.ordinal) config.device_options) } := by
  simp [XlaInterpreterPlatform.GetUncachedExecutor, hfail, initFailureMessage]

/-- Witness of C3 (amended): the busy backend at ordinal -5. -/
theorem C3_GetUncachedExecutor_init_failure_witness :
    (busyBackend.Init (newExecutor freshState.platform freshState.world (-5)) 0).ok = false ∧
    (freshState.platform.GetUncachedExecutor busyBackend ⟨-5, 0⟩ freshState.world).1 =
      Except.error
        { code := StatusCode.kInternal
          message := "failed initializing StreamExecutor for device ordinal " ++
            toString (-5 : Int) ++ ": " ++
            busyBackend.ToString
              (busyBackend.Init (newExecutor freshState.platform freshState.world (-5)) 0) } :=
  ⟨by decide,
    C3_GetUncachedExecutor_init_failure busyBackend freshState.platform ⟨-5, 0⟩
      freshState.world (by decide)⟩

/-- C4: in every reachable state, for two keys `k1` and `k2` that differ (in
ordinal or in device options) and whose `Init` succeeds, `GetExecutor(k1)`
followed by `GetExecutor(k2)` return two executors that are distinct objects,
each referring back to this platform, the first bound to `k1.ordinal` with
`Init` called on it with `k1.device_options`, the second bound to
`k2.ordinal` with `Init` called on it with `k2.device_options`; afterwards
each is the cache entry of its key. -/
theorem C4_GetExecutor_distinct_keys {Opts : Type} [DecidableEq Opts]
    (B1 B2 : Backend Opts) (k1 k2 : StreamExecutorConfig Opts) (s : State Opts)
    (hs : Reachable s) (hne : k1 ≠ k2)
    (h1 : ∀ ex, (B1.Init ex k1.device_options).ok = true)
    (h2 : ∀ ex, (B2.Init ex k2.device_options).ok = true) :
    ∃ e1 s1 e2 s2,
      XlaInterpreterPlatform.GetExecutor B1 k1 s = (Except.ok e1, s1) ∧
      XlaInterpreterPlatform.GetExecutor B2 k2 s1 = (Except.ok e2, s2) ∧
      e1.object ≠ e2.object ∧
      e1.platform = s.platform.id_ ∧ e2.platform = s.platform.id_ ∧
      e1.device_ordinal = k1.ordinal ∧ e2.device_ordinal = k2.ordinal ∧
      Event.init e1 k1.device_options ∈ s2.world.trace ∧
      Event.init e2 k2.device_options ∈ s2.world.trace ∧
      s2.platform.executor_cache_.Get k1 = some e1 ∧
      s2.platform.executor_cache_.Get k2 = some e2 := by
  obtain ⟨e1, s1, hr1, hg1, hid1, _⟩ := GetExecutor_succeeds B1 k1 s h1
  obtain ⟨e2, s2, hr2, hg2, hid2, hother⟩ := GetExecutor_succeeds B2 k2 s1 h2
  have hinv1 : Inv s1 := by
    have := Inv_GetExecutor B1 k1 s (Inv_of_Reachable hs)
    rw [hr1] at this
    exact this
  have hinv2 : Inv s2 := by
    have := Inv_GetExecutor B2 k2 s1 hinv1
    rw [hr2] at this
    exact this
  have hg12 : s2.platform.executor_cache_.Get k1 = some e1 := by
    rw [hother k1 (Ne.symm hne)]
    exact hg1
  have hm1 := ExecutorCache.Get_some_mem hg12
  have hm2 := ExecutorCache.Get_some_mem hg2
  obtain ⟨_, p1, o1, t1⟩ := hinv2.1 _ hm1
  obtain ⟨_, p2, o2, t2⟩ := hinv2.1 _ hm2
  refine ⟨e1, s1, e2, s2, hr1, hr2, ?_, ?_, ?_, o1, o2, t1, t2, hg12, hg2⟩
  · intro hobj
    exact hne (hinv2.2 _ hm1 _ hm2 hobj)
  · rw [p1, hid2, hid1]
  · rw [p2, hid2, hid1]

/-- Witness of C4: on a fresh platform, two keys with the same ordinal and
different device options. -/
theorem C4_GetExecutor_distinct_keys_witness :
    ∃ e1 s1 e2 s2,
      XlaInterpreterPlatform.GetExecutor readyBackend ⟨0, 0⟩ freshState = (Except.ok e1, s1) ∧
      XlaInterpreterPlatform.GetExecutor readyBackend ⟨0, 1⟩ s1 = (Except.ok e2, s2) ∧
      e1.object ≠ e2.object ∧
      e1.platform = freshState.platform.id_ ∧ e2.platform = freshState.platform.id_ ∧
      e1.device_ordinal = 0 ∧ e2.device_ordinal = 0 ∧
      Event.init e1 0 ∈ s2.world.trace ∧
      Event.init e2 1 ∈ s2.world.trace ∧
      s2.platform.executor_cache_.Get ⟨0, 0⟩ = some e1 ∧
      s2.platform.executor_cache_.Get ⟨0, 1⟩ = some e2 :=
  C4_GetExecutor_distinct_keys readyBackend readyBackend ⟨0, 0⟩ ⟨0, 1⟩ freshState
    (Reachable.constructed "Interpreter" 7 { next_object := 0, trace := [] })
    (by decide) (fun _ => rfl) (fun _ => rfl)

/-- C5: for every ordinal and every state, `ExecutorForDevice(ordinal)`
returns the same result and leaves the same state as `GetExecutor(config)`
with `config.ordinal = ordinal` and
`config.device_options = DeviceOptions::Default()`. -/
theorem C5_ExecutorForDevice_eq_GetExecutor {Opts : Type} [DecidableEq Opts]
    (B : Backend Opts) (dflt : Opts) (ordinal : Int) (s : State Opts) :
    XlaInterpreterPlatform.ExecutorForDevice B dflt ordinal s =
      XlaInterpreterPlatform.GetExecutor B { ordinal := ordinal, device_options := dflt } s ∧
    ∀ config : StreamExecutorConfig Opts,
      (config.ordinal = ordinal ∧ config.device_options = dflt) →
      XlaInterpreterPlatform.ExecutorForDevice B dflt ordinal s =
        XlaInterpreterPlatform.GetExecutor B config s := by
  refine ⟨rfl, ?_⟩
  rintro ⟨o, d⟩ ⟨ho, hd⟩
  simp only at ho hd
  subst ho
  subst hd
  rfl

/-- C6: `VisibleDeviceCount()` is 1 for every interpreter platform, whatever
name and identity it was constructed with, whatever its cache holds, and
after any list of executor requests. -/
theorem C6_VisibleDeviceCount_eq_one {Opts : Type} [DecidableEq Opts] :
    (∀ p : XlaInterpreterPlatform Opts, p.VisibleDeviceCount = 1) ∧
    (∀ (name : String) (id : Nat),
      (XlaInterpreterPlatform.new name id : XlaInterpreterPlatform Opts).VisibleDeviceCount = 1) ∧
    (∀ (rs : List (Backend Opts × StreamExecutorConfig Opts)) (s : State Opts),
      (requests rs s).platform.VisibleDeviceCount = 1) :=
  ⟨fun _ => rfl, fun _ _ => rfl, fun _ _ => rfl⟩

/-- C7: for every ordinal outside the visible range (below 0, or at least
`VisibleDeviceCount()`), `DescriptionForDevice(ordinal)` returns no device
description but the error `InvalidOrdinal`; the ordinals outside the visible
range are exactly the ordinals other than 0. -/
theorem C7_DescriptionForDevice_out_of_range {Opts Desc : Type}
    (p : XlaInterpreterPlatform Opts) (describe : Int → Desc) (ordinal : Int)
    (h : ordinal < 0 ∨ p.VisibleDeviceCount ≤ ordinal) :
    p.DescriptionForDevice describe ordinal = Except.error (InvalidOrdinal ordinal) ∧
    (p.DescriptionForDevice describe ordinal).isOk = false ∧
    (∀ d, p.DescriptionForDevice describe ordinal ≠ Except.ok d) ∧
    ordinal ≠ 0 ∧
    (∀ o : Int, o ≠ 0 → o < 0 ∨ p.VisibleDeviceCount ≤ o) := by
  have h1 : ordinal < 0 ∨ 1 ≤ ordinal := h
  have hr : p.DescriptionForDevice describe ordinal = Except.error (InvalidOrdinal ordinal) := by
    simp [XlaInterpreterPlatform.DescriptionForDevice,
      XlaInterpreterExecutor.CreateDeviceDescription, h1]
  refine ⟨hr, ?_, ?_, ?_, ?_⟩
  · rw [hr]
    rfl
  · intro d hd
    rw [hr] at hd
    cases hd
  · omega
  · intro o ho
    show o < 0 ∨ 1 ≤ o
    omega

/-- Witness of C7: ordinal 5 on the platform of the fresh state. -/
theorem C7_DescriptionForDevice_out_of_range_witness :
    ((5 : Int) < 0 ∨ freshState.platform.VisibleDeviceCount ≤ 5) ∧
    freshState.platform.DescriptionForDevice (fun o => o) 5 =
      Except.error (InvalidOrdinal 5) :=
  ⟨by decide,
    (C7_DescriptionForDevice_out_of_range freshState.platform (fun o => o) 5
      (by decide)).1⟩

/-- C8: for every configuration key, `GetUncachedExecutor` records exactly one
factory entry and exactly one `Init` call, made on the executor it has just
constructed with the device options of the key; that executor refers back to
this platform and is bound to the ordinal of the key; an executor is returned
if and only if that `Init` succeeds, and the executor returned is then that
very executor. -/
theorem C8_GetUncachedExecutor_init_once {Opts : Type} (B : Backend Opts)
    (p : XlaInterpreterPlatform Opts) (config : StreamExecutorConfig Opts) (w : World Opts) :
    (p.GetUncachedExecutor B config w).2.trace =
      w.trace ++ [Event.factory config,
        Event.init (newExecutor p w config.ordinal) config.device_options] ∧
    initCalls (p.GetUncachedExecutor B config w).2.trace = initCalls w.trace + 1 ∧
    (newExecutor p w config.ordinal).platform = p.id_ ∧
    (newExecutor p w config.ordinal).device_ordinal = config.ordinal ∧
    ((p.GetUncachedExecutor B config w).1.isOk =
      (B.Init (newExecutor p w config.ordinal) config.device_options).ok) ∧
    (∀ e, (p.GetUncachedExecutor B config w).1 = Except.ok e ↔
      (e = newExecutor p w config.ordinal ∧
        (B.Init (newExecutor p w config.ordinal) config.device_options).ok = true)) := by
  have ht : (p.GetUncachedExecutor B config w).2.trace =
      w.trace ++ [Event.factory config,
        Event.init (newExecutor p w config.ordinal) config.device_options] := by
    unfold XlaInterpreterPlatform.GetUncachedExecutor
    simp only
    split <;> rfl
  refine ⟨ht, ?_, rfl, rfl, ?_, ?_⟩
  · rw [ht, initCalls_append, initCalls_pair]
  · unfold XlaInterpreterPlatform.GetUncachedExecutor
    rcases hi : (B.Init (newExecutor p w config.ordinal) config.device_options).ok with _ | _
    · simp [hi, Except.isOk, Except.toBool]
    · simp [hi, Except.isOk, Except.toBool]
  · intro e
    unfold XlaInterpreterPlatform.GetUncachedExecutor
    rcases hi : (B.Init (newExecutor p w config.ordinal) config.device_options).ok with _ | _
    · simp [hi]
    · simp [hi]
      exact eq_comm

/-- C9: the start-up routine makes exactly one `RegisterPlatform` call, with a
newly default-constructed interpreter platform (empty cache); whatever
`RegisterPlatform` does, the run ends in an abort exactly when the status it
returned is not ok, and otherwise returns with the registry as that call left
it.  With the registry of the spec: the run aborts exactly when the identity
is already registered, and otherwise returns with the new platform found
under its identity. -/
theorem C9_InitializeXlaInterpreterPlatform {R Opts : Type}
    (RegisterPlatform : R → XlaInterpreterPlatform Opts → Status × R)
    (kName : String) (kId : Nat) (s : Startup R Opts)
    (r : Registry Opts) (calls : List (XlaInterpreterPlatform Opts)) :
    (InitializeXlaInterpreterPlatform RegisterPlatform kName kId s).state.register_calls =
      s.register_calls ++ [XlaInterpreterPlatform.new kName kId] ∧
    (InitializeXlaInterpreterPlatform RegisterPlatform kName kId s).state.registry =
      (RegisterPlatform s.registry (XlaInterpreterPlatform.new kName kId)).2 ∧
    (InitializeXlaInterpreterPlatform RegisterPlatform kName kId s).isAborted =
      !(RegisterPlatform s.registry (XlaInterpreterPlatform.new kName kId)).1.ok ∧
    (InitializeXlaInterpreterPlatform MultiPlatformManager.RegisterPlatform kName kId
      { registry := r, register_calls := calls }).isAborted = (r.Lookup kId).isSome ∧
    ((r.Lookup kId).isSome = false →
      (InitializeXlaInterpreterPlatform MultiPlatformManager.RegisterPlatform kName kId
        { registry := r, register_calls := calls }).state.registry.Lookup kId =
        some (XlaInterpreterPlatform.new kName kId)) := by
  refine ⟨?_, ?_, ?_, ?_, ?_⟩
  · unfold InitializeXlaInterpreterPlatform TF_CHECK_OK
    simp only
    split <;> rfl
  · unfold InitializeXlaInterpreterPlatform TF_CHECK_OK
    simp only
    split <;> rfl
  · unfold InitializeXlaInterpreterPlatform TF_CHECK_OK
    simp only
    split <;> simp_all [Outcome.isAborted]
  · unfold InitializeXlaInterpreterPlatform TF_CHECK_OK MultiPlatformManager.RegisterPlatform
    rcases hl : r.Lookup kId with _ | q
    · simp [hl, XlaInterpreterPlatform.new, OkStatus, Status.ok, Outcome.isAborted]
    · simp [hl, XlaInterpreterPlatform.new, AlreadyRegistered, Status.ok, Outcome.isAborted]
  · intro hl
    have hl : r.Lookup kId = none := by
      cases h : r.Lookup kId with
      | none => rfl
      | some q => rw [h] at hl; simp at hl
    have hreg : MultiPlatformManager.RegisterPlatform r
        (XlaInterpreterPlatform.new kName kId : XlaInterpreterPlatform Opts) =
        (OkStatus, { platforms := XlaInterpreterPlatform.new kName kId :: r.platforms }) := by
      have hl2 : r.Lookup (XlaInterpreterPlatform.new kName kId :
          XlaInterpreterPlatform Opts).id_ = none := hl
      unfold MultiPlatformManager.RegisterPlatform
      rw [hl2]
    unfold InitializeXlaInterpreterPlatform TF_CHECK_OK
    simp only [hreg]
    simp [XlaInterpreterPlatform.new, OkStatus, Status.ok, Outcome.state, Registry.Lookup]

end interpreter

end stream_executor
